import Mathlib

/-!
Verification development for the request admission-control and
ownership-authorization layer of the acacia-store server.

The definitions below are a shallow embedding of
`src/middleware/rateLimit.ts` (the `MemoryStore` counter store, the
`createRateLimitMiddleware` gate, the five built-in policies, and the
`getRateLimitStatus` helper), of the `getExtensionOwner` lookup from
`src/routes/extensions.ts`, and of the `requireOwnershipOrAdmin` guard.
JavaScript machine numbers are modelled as `Nat` for instants and window
durations (values of `Date.now()` are non-negative) and as `Int` for entry
counts (so that the possibility of a decrement below zero is expressible).
The ambient clock `Date.now()` becomes an explicit `now : Nat` parameter;
the mutable `Map` becomes an association list threaded through each
operation; `console` logging and the `onLimitReached` callback are pure
side effects with no influence on the decision and are not modelled.
-/

namespace AcaciaStore

/-- One counter entry, after `RateLimitEntry` in `rateLimit.ts`:
`{ count, resetTime, firstRequest }`. `count` is an `Int` so that the
non-negativity invariant is a statement rather than a typing artifact. -/
structure RateLimitEntry where
  count : Int
  resetTime : Nat
  firstRequest : Nat
deriving DecidableEq, Repr

/-- The contents of a `MemoryStore`: the `Map<string, RateLimitEntry>`
as an association list (at most one binding per key is maintained by
`mapSet`/`mapDelete`). -/
abbrev Store := List (String × RateLimitEntry)

/-- `Map.get`: first binding for the key, if any. -/
def mapGet : Store → String → Option RateLimitEntry
  | [], _ => none
  | (k, v) :: rest, key => if k = key then some v else mapGet rest key

/-- `Map.delete`: remove every binding for the key. -/
def mapDelete (s : Store) (key : String) : Store :=
  s.filter (fun kv => kv.1 ≠ key)

/-- `Map.set`: bind the key, replacing any previous binding. -/
def mapSet (s : Store) (key : String) (v : RateLimitEntry) : Store :=
  (key, v) :: mapDelete s key

namespace MemoryStore

/-- `MemoryStore.get` (rateLimit.ts lines 44-51): look the key up; if the
entry exists and `entry.resetTime < Date.now()`, delete it and report
none; otherwise return the lookup result. Returns the result together
with the store after the possible eviction. -/
def get (s : Store) (key : String) (now : Nat) :
    Option RateLimitEntry × Store :=
  match mapGet s key with
  | some entry =>
      if entry.resetTime < now then (none, mapDelete s key)
      else (some entry, s)
  | none => (none, s)

/-- `MemoryStore.increment` (rateLimit.ts lines 53-70): consult `get`; on
a hit, bump `count` in place; on a miss, create
`{count: 1, resetTime: now + windowMs, firstRequest: now}`. -/
def increment (s : Store) (key : String) (windowMs : Nat) (now : Nat) :
    RateLimitEntry × Store :=
  let res := get s key now
  match res.1 with
  | some existing =>
      let updated : RateLimitEntry := { existing with count := existing.count + 1 }
      (updated, mapSet res.2 key updated)
  | none =>
      let newEntry : RateLimitEntry :=
        { count := 1, resetTime := now + windowMs, firstRequest := now }
      (newEntry, mapSet res.2 key newEntry)

/-- `MemoryStore.reset` (rateLimit.ts lines 72-74). -/
def reset (s : Store) (key : String) : Store :=
  mapDelete s key

end MemoryStore

/-- The authenticated user attached to a request context, with the fields
the rate-limit and ownership code reads (`User` in `types/index.ts`);
`role` stays a string, as in the source. -/
structure User where
  id : String
  role : String
  username : String
deriving DecidableEq, Repr

/-- The API-key object read by `apiKeyRateLimit` (`c.get("apiKey")`). -/
structure ApiKey where
  id : String
deriving DecidableEq, Repr

/-- The slice of the Hono request context `c` that the rate-limit layer
reads: the attached user and API key, the three IP headers consulted by
`defaultKeyGenerator`, and the request path. -/
structure Ctx where
  user : Option User
  apiKey : Option ApiKey
  xForwardedFor : Option String
  xRealIp : Option String
  remoteAddr : Option String
  path : String
deriving DecidableEq, Repr

/-- JavaScript truthiness of a possibly-absent header string: `undefined`
and `""` are falsy. -/
def headerTruthy : Option String → Bool
  | some str => str ≠ ""
  | none => false

/-- `defaultKeyGenerator` (rateLimit.ts lines 114-125):
`ip = forwarded ? forwarded.split(",")[0]?.trim() : realIp || remoteAddr || "unknown"`,
then prefix with `"ip:"`. -/
def defaultKeyGenerator (c : Ctx) : String :=
  let ip :=
    if headerTruthy c.xForwardedFor then
      (((c.xForwardedFor.getD "").splitOn ",").headD "").trim
    else if headerTruthy c.xRealIp then c.xRealIp.getD ""
    else if headerTruthy c.remoteAddr then c.remoteAddr.getD ""
    else "unknown"
  "ip:" ++ ip

/-- `defaultSkip` (rateLimit.ts line 128): never skip. -/
def defaultSkip : Ctx → Bool := fun _ => false

/-- `RateLimitConfig` (rateLimit.ts lines 13-21), after the defaults of
`createRateLimitMiddleware` have been filled in. The `onLimitReached`
callback is a pure side effect ("must not alter the decision") and is
omitted. -/
structure RateLimitConfig where
  windowMs : Nat
  maxRequests : Nat
  skipSuccessfulRequests : Bool
  skipFailedRequests : Bool
  keyGenerator : Ctx → String
  skip : Ctx → Bool

/-- `Math.ceil(d / 1000)` for a non-negative integer `d`. The gate only
applies this to `entry.resetTime` and to `entry.resetTime - now` for an
entry just returned by `increment`, whose `resetTime` is at or after
`now` (theorem `increment_now_le_resetTime`), so `Nat` subtraction in the
caller agrees with the JavaScript arithmetic. -/
def ceilDiv1000 (d : Nat) : Nat :=
  (d + 999) / 1000

/-- The four `X-RateLimit-*` headers set by the gate (rateLimit.ts lines
158-164): `Limit`, `Remaining = max(0, maxRequests - count)`,
`Reset = Math.ceil(resetTime / 1000)`, `Used = count`. -/
structure RateLimitHeaders where
  limit : Nat
  remaining : Int
  reset : Nat
  used : Int
deriving DecidableEq, Repr

/-- Build the headers from the ceiling and the entry, as lines 158-164 do. -/
def mkHeaders (maxRequests : Nat) (entry : RateLimitEntry) : RateLimitHeaders :=
  { limit := maxRequests
    remaining := max 0 ((maxRequests : Int) - entry.count)
    reset := ceilDiv1000 entry.resetTime
    used := entry.count }

/-- Outcome of one pass of a request through the gate: either the
`HTTPException(429)` thrown at line 176 (carrying the headers already set
and the `Retry-After` value), or completion with the downstream status and
the headers the gate emitted (`none` when the policy was skipped). -/
inductive GateOutcome where
  | rejected (status : Nat) (headers : RateLimitHeaders) (retryAfter : Nat)
  | completed (status : Nat) (headers : Option RateLimitHeaders)
deriving DecidableEq, Repr

/-- Whether the gate threw the 429. -/
def GateOutcome.isRejected : GateOutcome → Bool
  | .rejected _ _ _ => true
  | .completed _ _ => false

/-- The `finally` block of the gate (rateLimit.ts lines 193-209): the
compensating decrement, applied once per matching flag. `store.get` is
consulted again (evicting an expired entry), and the count is decremented
only when the entry is present and `count > 0`. -/
def decrementIfPresent (s : Store) (key : String) (now : Nat) : Store :=
  let res := MemoryStore.get s key now
  match res.1 with
  | some currentEntry =>
      if 0 < currentEntry.count then
        mapSet res.2 key { currentEntry with count := currentEntry.count - 1 }
      else res.2
  | none => res.2

/-- Both compensation branches of the `finally` block in order: the
success branch (`statusCode && statusCode < 400`), then the failure
branch (`statusCode && statusCode >= 400`). JavaScript truthiness of
`statusCode` is `statusCode ≠ 0`. -/
def settle (cfg : RateLimitConfig) (key : String) (statusCode : Nat)
    (s : Store) (now : Nat) : Store :=
  let s1 :=
    if cfg.skipSuccessfulRequests ∧ statusCode ≠ 0 ∧ statusCode < 400 then
      decrementIfPresent s key now
    else s
  if cfg.skipFailedRequests ∧ statusCode ≠ 0 ∧ 400 ≤ statusCode then
    decrementIfPresent s1 key now
  else s1

/-- One pass of a request through `createRateLimitMiddleware`'s handler
(rateLimit.ts lines 144-210). The downstream pipeline (`next` plus the
observation of `c.res.status` / the caught error's status) is abstracted
as a function from the store it runs against to the settled status code
and the store it leaves behind. Skip short-circuits with no bookkeeping;
otherwise the key is derived, the counter incremented, headers set, and
the request is rejected with 429 exactly when `entry.count > maxRequests`;
an admitted request runs downstream and then the `finally` compensation. -/
def runGate (cfg : RateLimitConfig) (c : Ctx) (s : Store) (now : Nat)
    (handler : Store → Nat × Store) : GateOutcome × Store :=
  if cfg.skip c then
    let r := handler s
    (.completed r.1 none, r.2)
  else
    let key := cfg.keyGenerator c
    let inc := MemoryStore.increment s key cfg.windowMs now
    let entry := inc.1
    let headers := mkHeaders cfg.maxRequests entry
    if entry.count > (cfg.maxRequests : Int) then
      (.rejected 429 headers (ceilDiv1000 (entry.resetTime - now)), inc.2)
    else
      let r := handler inc.2
      (.completed r.1 (some headers), settle cfg key r.1 r.2 now)

/-- The two rate-limit fields of `ServerConfig`, with the values the
server bootstrap computes when the `RATE_LIMIT_WINDOW_MS` /
`RATE_LIMIT_MAX_REQUESTS` environment variables are unset:
`parseInt("900000")` and `parseInt("100")`. -/
structure ServerConfig where
  rateLimitWindowMs : Nat
  rateLimitMaxRequests : Nat
deriving DecidableEq, Repr

/-- The bootstrap defaults: a 15-minute window and 100 requests. -/
def defaultServerConfig : ServerConfig :=
  { rateLimitWindowMs := 900000, rateLimitMaxRequests := 100 }

/-- Key generator of the general policy (rateLimit.ts lines 218-228):
`user:` plus the principal id when authenticated, else the IP key. -/
def generalKeyGenerator (c : Ctx) : String :=
  match c.user with
  | some user => "user:" ++ user.id
  | none => defaultKeyGenerator c

/-- Skip rule of the general policy (rateLimit.ts lines 229-243): skip
admins and the `/health` path. -/
def generalSkip (c : Ctx) : Bool :=
  (match c.user with
   | some user => user.role == "admin"
   | none => false) || c.path == "/health"

/-- `rateLimitMiddleware(serverConfig)` (rateLimit.ts lines 214-253): the
general policy, window and ceiling taken from the server config, the
other fields from the factory defaults. -/
def rateLimitMiddleware (serverConfig : ServerConfig) : RateLimitConfig :=
  { windowMs := serverConfig.rateLimitWindowMs
    maxRequests := serverConfig.rateLimitMaxRequests
    skipSuccessfulRequests := false
    skipFailedRequests := false
    keyGenerator := generalKeyGenerator
    skip := generalSkip }

/-- The general policy as the shipped server mounts it (`app.use("*",
rateLimitMiddleware(serverConfig))` with the default environment). -/
def generalRateLimit : RateLimitConfig :=
  rateLimitMiddleware defaultServerConfig

/-- `strictRateLimit` (rateLimit.ts lines 256-270): 5-minute window,
ceiling 10, key combines principal id and IP, admins skipped. -/
def strictRateLimit : RateLimitConfig :=
  { windowMs := 5 * 60 * 1000
    maxRequests := 10
    skipSuccessfulRequests := false
    skipFailedRequests := false
    keyGenerator := fun c =>
      let ip := defaultKeyGenerator c
      match c.user with
      | some user => "strict:" ++ user.id ++ ":" ++ ip
      | none => "strict:" ++ ip
    skip := fun c =>
      match c.user with
      | some user => user.role == "admin"
      | none => false }

/-- `authRateLimit` (rateLimit.ts lines 273-286): 15-minute window,
ceiling 5, key `auth:` plus the IP key, never skipped (the factory
default `defaultSkip` applies). -/
def authRateLimit : RateLimitConfig :=
  { windowMs := 15 * 60 * 1000
    maxRequests := 5
    skipSuccessfulRequests := false
    skipFailedRequests := false
    keyGenerator := fun c => "auth:" ++ defaultKeyGenerator c
    skip := defaultSkip }

/-- `uploadRateLimit` (rateLimit.ts lines 289-300): 60-minute window,
ceiling 50, key `upload:` plus principal id (else the IP key), skipped
for admins and developers. -/
def uploadRateLimit : RateLimitConfig :=
  { windowMs := 60 * 60 * 1000
    maxRequests := 50
    skipSuccessfulRequests := false
    skipFailedRequests := false
    keyGenerator := fun c =>
      match c.user with
      | some user => "upload:" ++ user.id
      | none => "upload:" ++ defaultKeyGenerator c
    skip := fun c =>
      match c.user with
      | some user => user.role == "admin" || user.role == "developer"
      | none => false }

/-- `apiKeyRateLimit` (rateLimit.ts lines 303-316): 60-minute window,
ceiling 1000, key by API-key id, else principal id, else IP, never
skipped. -/
def apiKeyRateLimit : RateLimitConfig :=
  { windowMs := 60 * 60 * 1000
    maxRequests := 1000
    skipSuccessfulRequests := false
    skipFailedRequests := false
    keyGenerator := fun c =>
      match c.apiKey with
      | some apiKey => "apikey:" ++ apiKey.id
      | none =>
          match c.user with
          | some user => "user:" ++ user.id
          | none => defaultKeyGenerator c
    skip := defaultSkip }

/-- A `MemoryStore` object as allocated by `getStore`: the constructor
argument it was created with and its entries. Two calls that return the
same object return equal values of this type. -/
structure MemoryStoreObj where
  ctorWindowMs : Nat
  entries : Store
deriving DecidableEq

/-- `getStore` (rateLimit.ts lines 106-111) acting on the module-level
`globalStore` variable: if a store has already been allocated, return it
unchanged; otherwise allocate one with the given `windowMs` and record it
as the global store. Every call after the first returns the store the
first call created, whatever `windowMs` either call passed. -/
def getStore (windowMs : Nat) :
    Option MemoryStoreObj → MemoryStoreObj × Option MemoryStoreObj
  | some st => (st, some st)
  | none => (⟨windowMs, []⟩, some ⟨windowMs, []⟩)

/-- The result object of `getRateLimitStatus` (rateLimit.ts lines
319-343). -/
structure RateLimitStatus where
  count : Int
  remaining : Int
  resetTime : Nat
  isLimited : Bool
deriving DecidableEq, Repr

/-- `getRateLimitStatus(key, windowMs)` on the global store's entries:
consult `MemoryStore.get`; when absent report `count 0, remaining 100,
resetTime now + windowMs, isLimited false`; when present report the
entry's count, `remaining = max(0, 100 - count)` and
`isLimited = count >= 100` against the hard-coded `maxRequests = 100`. -/
def getRateLimitStatus (key : String) (windowMs : Nat) (s : Store)
    (now : Nat) : RateLimitStatus :=
  let res := MemoryStore.get s key now
  match res.1 with
  | none =>
      { count := 0
        remaining := 100
        resetTime := now + windowMs
        isLimited := false }
  | some entry =>
      { count := entry.count
        remaining := max 0 ((100 : Int) - entry.count)
        resetTime := entry.resetTime
        isLimited := decide ((100 : Int) ≤ entry.count) }

/-- Result of the ownership guard. -/
inductive GuardResult where
  | allowed
  | unauthenticated (status : Nat)
  | notFound (status : Nat)
  | forbidden (status : Nat)
deriving DecidableEq, Repr

/-- What the route-supplied async owner lookup reports: the owner id of
the referenced resource, or that the resource does not exist. -/
inductive OwnerLookup where
  | found (ownerId : String)
  | missing
deriving DecidableEq, Repr

/-- `getExtensionOwner` (routes/extensions.ts): select the extension's
`authorId` by id; when the row is absent, throw `HTTPException(404)`. The
database table is abstracted as an association list from extension id to
author id. -/
def getExtensionOwner (extensionsById : List (String × String))
    (id : String) : Except Nat String :=
  match extensionsById.lookup id with
  | none => .error 404
  | some authorId => .ok authorId

/-- Modelled from the spec: `requireOwnershipOrAdmin` lives in
`src/middleware/auth.ts`, which is not among the provided sources (only
its import sites in the route files are). Following §4.4 of the design:
no principal fails Unauthenticated (401); a missing resource fails
NotFound (404) before any ownership comparison; an admin principal is
allowed regardless of the owner; a principal whose id equals the owner id
is allowed; anyone else fails Forbidden (403). -/
def requireOwnershipOrAdmin (principal : Option User)
    (lookup : OwnerLookup) : GuardResult :=
  match principal with
  | none => .unauthenticated 401
  | some user =>
      match lookup with
      | .missing => .notFound 404
      | .found ownerId =>
          if user.role = "admin" then .allowed
          else if user.id = ownerId then .allowed
          else .forbidden 403

/-- The guard composed with the extension-owner lookup, as
`requireOwnershipOrAdmin(getExtensionOwner)` wires them on the mutation
routes. -/
def guardExtension (extensionsById : List (String × String))
    (id : String) (principal : Option User) : GuardResult :=
  requireOwnershipOrAdmin principal
    (match getExtensionOwner extensionsById id with
     | .ok ownerId => .found ownerId
     | .error _ => .missing)

/-- `N` successive calls to `MemoryStore.increment` for one key, at the
listed instants, threading the store. -/
def incrementTimes (key : String) (windowMs : Nat) :
    List Nat → Store → Store
  | [], s => s
  | t :: ts, s =>
      incrementTimes key windowMs ts (MemoryStore.increment s key windowMs t).2

/-- Every entry count in the store is non-negative. -/
def StoreNonneg (s : Store) : Prop :=
  ∀ kv ∈ s, 0 ≤ kv.2.count

section MapLemmas

theorem mapGet_mapDelete_self (s : Store) (key : String) :
    mapGet (mapDelete s key) key = none := by
  induction s with
  | nil => rfl
  | cons kv rest ih =>
      by_cases h : kv.1 = key
      · simpa [mapDelete, List.filter_cons, h] using ih
      · simpa [mapDelete, List.filter_cons, h, mapGet] using ih

theorem mapGet_mapSet_self (s : Store) (key : String) (v : RateLimitEntry) :
    mapGet (mapSet s key v) key = some v := by
  simp [mapSet, mapGet]

theorem mapGet_mem {s : Store} {key : String} {v : RateLimitEntry}
    (h : mapGet s key = some v) : (key, v) ∈ s := by
  induction s with
  | nil => simp [mapGet] at h
  | cons kv rest ih =>
      obtain ⟨k, w⟩ := kv
      by_cases hk : k = key
      · rw [mapGet, if_pos hk] at h
        cases h
        cases hk
        exact List.mem_cons_self _ _
      · rw [mapGet, if_neg hk] at h
        exact List.mem_cons_of_mem _ (ih h)

theorem nonneg_mapDelete {s : Store} (hs : StoreNonneg s) (key : String) :
    StoreNonneg (mapDelete s key) := by
  intro kv hkv
  exact hs kv (List.mem_of_mem_filter hkv)

theorem nonneg_mapSet {s : Store} (hs : StoreNonneg s) {key : String}
    {v : RateLimitEntry} (hv : 0 ≤ v.count) :
    StoreNonneg (mapSet s key v) := by
  intro kv hkv
  rcases List.mem_cons.mp hkv with h | h
  · subst h; exact hv
  · exact nonneg_mapDelete hs key kv h

end MapLemmas

section StoreLemmas

/-- The hit case of `MemoryStore.get`: the entry is reported exactly when
the lookup succeeds and `resetTime` has not strictly passed. -/
theorem get_fst_eq_some_iff (s : Store) (key : String) (now : Nat)
    (e : RateLimitEntry) :
    (MemoryStore.get s key now).1 = some e ↔
      mapGet s key = some e ∧ now ≤ e.resetTime := by
  unfold MemoryStore.get
  cases hm : mapGet s key with
  | none => simp
  | some entry =>
      by_cases hlt : entry.resetTime < now
      · simp only [hlt, if_pos]
        constructor
        · intro h; cases h
        · rintro ⟨he, hle⟩
          cases he
          omega
      · simp only [hlt, if_neg]
        constructor
        · intro h
          cases h
          exact ⟨rfl, Nat.le_of_not_lt hlt⟩
        · rintro ⟨he, _⟩
          cases he
          rfl

/-- The store `MemoryStore.get` leaves behind: unchanged, except that a
present-but-expired entry is evicted. -/
theorem get_snd_eq (s : Store) (key : String) (now : Nat) :
    (MemoryStore.get s key now).2 =
      match mapGet s key with
      | some e => if e.resetTime < now then mapDelete s key else s
      | none => s := by
  unfold MemoryStore.get
  cases mapGet s key with
  | none => rfl
  | some e =>
      by_cases hlt : e.resetTime < now <;> simp [hlt]

/-- `MemoryStore.get` never reports an entry but leaves the store empty of
it: a miss means the key is absent from the returned store. -/
theorem get_none_mapGet {s : Store} {key : String} {now : Nat}
    (h : (MemoryStore.get s key now).1 = none) :
    mapGet (MemoryStore.get s key now).2 key = none := by
  unfold MemoryStore.get at *
  cases hm : mapGet s key with
  | none => simp [hm]
  | some e =>
      rw [hm] at h
      by_cases hlt : e.resetTime < now
      · simp [hm, hlt, mapGet_mapDelete_self]
      · simp [hlt] at h

/-- On a miss of the inner `get`, `increment` creates the fresh entry
`{count: 1, resetTime: now + windowMs, firstRequest: now}`. -/
theorem increment_of_get_none {s : Store} {key : String} {windowMs now : Nat}
    (h : (MemoryStore.get s key now).1 = none) :
    MemoryStore.increment s key windowMs now =
      (⟨1, now + windowMs, now⟩,
       mapSet (MemoryStore.get s key now).2 key ⟨1, now + windowMs, now⟩) := by
  simp only [MemoryStore.increment]
  rw [h]

/-- On a hit of the inner `get`, `increment` bumps the count in place:
`resetTime` and `firstRequest` are untouched, and since the hit means the
entry was not evicted, the store written to is `s` itself. -/
theorem increment_of_get_some {s : Store} {key : String} {windowMs now : Nat}
    {e : RateLimitEntry} (h : (MemoryStore.get s key now).1 = some e) :
    MemoryStore.increment s key windowMs now =
      ({ e with count := e.count + 1 },
       mapSet s key { e with count := e.count + 1 }) := by
  have hsnd : (MemoryStore.get s key now).2 = s := by
    obtain ⟨hm, hle⟩ := (get_fst_eq_some_iff s key now e).mp h
    rw [get_snd_eq, hm]
    simp [Nat.not_lt.mpr hle]
  simp only [MemoryStore.increment]
  rw [h, hsnd]

/-- The entry `increment` returns never has its `resetTime` strictly in
the past: fresh entries reset at `now + windowMs`, and an existing entry
survived the inner `get`'s expiry check. -/
theorem increment_now_le_resetTime (s : Store) (key : String)
    (windowMs now : Nat) :
    now ≤ ((MemoryStore.increment s key windowMs now).1).resetTime := by
  cases hg : (MemoryStore.get s key now).1 with
  | none =>
      rw [increment_of_get_none hg]
      exact Nat.le_add_right now windowMs
  | some e =>
      rw [increment_of_get_some hg]
      exact ((get_fst_eq_some_iff s key now e).mp hg).2

/-- After `increment`, the key is bound to exactly the returned entry. -/
theorem mapGet_increment (s : Store) (key : String) (windowMs now : Nat) :
    mapGet (MemoryStore.increment s key windowMs now).2 key =
      some (MemoryStore.increment s key windowMs now).1 := by
  cases hg : (MemoryStore.get s key now).1 with
  | none => rw [increment_of_get_none hg]; exact mapGet_mapSet_self ..
  | some e => rw [increment_of_get_some hg]; exact mapGet_mapSet_self ..

/-- `Math.ceil(d / 1000)` really is the ceiling: `ceilDiv1000 d` is the
least number of whole seconds covering `d` milliseconds. -/
theorem ceilDiv1000_spec (d : Nat) :
    d ≤ 1000 * ceilDiv1000 d ∧ 1000 * ceilDiv1000 d < d + 1000 := by
  unfold ceilDiv1000
  have h1 := Nat.div_add_mod (d + 999) 1000
  have h2 : (d + 999) % 1000 < 1000 := Nat.mod_lt _ (by norm_num)
  omega

/-- An existing unexpired entry accumulates one unit of count per
increment, with `resetTime` and `firstRequest` untouched, as long as each
increment happens no later than the entry's `resetTime`. -/
theorem incrementTimes_existing (key : String) (windowMs : Nat) :
    ∀ (ts : List Nat) (s : Store) (e : RateLimitEntry),
      mapGet s key = some e → (∀ t ∈ ts, t ≤ e.resetTime) →
      mapGet (incrementTimes key windowMs ts s) key =
        some { e with count := e.count + (ts.length : Int) } := by
  intro ts
  induction ts with
  | nil =>
      intro s e hs _
      simp only [incrementTimes, List.length_nil, Nat.cast_zero, add_zero, hs]
  | cons t ts ih =>
      intro s e hs hw
      have ht : t ≤ e.resetTime := hw t (List.mem_cons_self _ _)
      have hget : (MemoryStore.get s key t).1 = some e :=
        (get_fst_eq_some_iff s key t e).mpr ⟨hs, ht⟩
      have hinc := @increment_of_get_some s key windowMs t e hget
      simp only [incrementTimes]
      rw [hinc]
      have hkey := mapGet_mapSet_self s key { e with count := e.count + 1 }
      have hrec := ih (mapSet s key { e with count := e.count + 1 })
        { e with count := e.count + 1 } hkey
        (fun u hu => hw u (List.mem_cons_of_mem _ hu))
      rw [hrec]
      simp only [List.length_cons]
      congr 1
      simp only [RateLimitEntry.mk.injEq, and_true, true_and]
      omega

/-- An expired entry is evicted by the inner `get` and replaced by a
fresh entry with count 1 and a new window. -/
theorem increment_expired {s : Store} {key : String} {windowMs t : Nat}
    {e : RateLimitEntry} (hs : mapGet s key = some e)
    (hlt : e.resetTime < t) :
    MemoryStore.increment s key windowMs t =
      (⟨1, t + windowMs, t⟩,
       mapSet (mapDelete s key) key ⟨1, t + windowMs, t⟩) := by
  have h1 : (MemoryStore.get s key t).1 = none := by
    unfold MemoryStore.get
    rw [hs]
    simp [hlt]
  have h2 : (MemoryStore.get s key t).2 = mapDelete s key := by
    rw [get_snd_eq, hs]
    simp [hlt]
  rw [increment_of_get_none h1, h2]

section NonnegLemmas

theorem nonneg_get_snd {s : Store} (hs : StoreNonneg s) (key : String)
    (now : Nat) : StoreNonneg (MemoryStore.get s key now).2 := by
  rw [get_snd_eq]
  cases mapGet s key with
  | none => exact hs
  | some e =>
      by_cases hlt : e.resetTime < now
      · simpa [hlt] using nonneg_mapDelete hs key
      · simpa [hlt] using hs

theorem nonneg_increment {s : Store} (hs : StoreNonneg s) (key : String)
    (windowMs now : Nat) :
    StoreNonneg (MemoryStore.increment s key windowMs now).2 := by
  cases hg : (MemoryStore.get s key now).1 with
  | none =>
      rw [increment_of_get_none hg]
      exact nonneg_mapSet (nonneg_get_snd hs key now) (by norm_num)
  | some e =>
      rw [increment_of_get_some hg]
      have he : (key, e) ∈ s :=
        mapGet_mem ((get_fst_eq_some_iff s key now e).mp hg).1
      have he2 : (0 : Int) ≤ e.count := hs _ he
      refine nonneg_mapSet hs ?_
      show (0 : Int) ≤ e.count + 1
      omega

theorem nonneg_decrementIfPresent {s : Store} (hs : StoreNonneg s)
    (key : String) (now : Nat) :
    StoreNonneg (decrementIfPresent s key now) := by
  simp only [decrementIfPresent]
  cases hg : (MemoryStore.get s key now).1 with
  | none => exact nonneg_get_snd hs key now
  | some e =>
      by_cases hc : 0 < e.count
      · simp only [hc, if_pos]
        refine nonneg_mapSet (nonneg_get_snd hs key now) ?_
        show (0 : Int) ≤ e.count - 1
        omega
      · simp only [hc, if_neg]
        exact nonneg_get_snd hs key now

theorem nonneg_settle {s : Store} (hs : StoreNonneg s)
    (cfg : RateLimitConfig) (key : String) (statusCode now : Nat) :
    StoreNonneg (settle cfg key statusCode s now) := by
  unfold settle
  split
  · split
    · exact nonneg_decrementIfPresent (nonneg_decrementIfPresent hs key now) key now
    · exact nonneg_decrementIfPresent hs key now
  · split
    · exact nonneg_decrementIfPresent hs key now
    · exact hs

/-- When the re-read inside the `finally` block misses (key absent or
entry expired), the compensating decrement changes nothing beyond the
eviction `get` itself performs. -/
theorem decrement_of_get_none {s : Store} {key : String} {now : Nat}
    (h : (MemoryStore.get s key now).1 = none) :
    decrementIfPresent s key now = (MemoryStore.get s key now).2 := by
  simp only [decrementIfPresent]
  rw [h]

end NonnegLemmas

end StoreLemmas

/-- C1: for every non-skipped request, the gate rejects exactly when the
count immediately after the request's own increment strictly exceeds
`maxRequests` (so the request reaching exactly `maxRequests` is still
allowed); a rejection carries HTTP status 429 and a `Retry-After` of
`ceil((entry.resetTime - now) / 1000)` seconds — a genuine ceiling, per
the bounds in the last conjunct, with `now ≤ entry.resetTime` so the
truncated subtraction agrees with the JavaScript arithmetic. -/
theorem C1_reject_iff_count_gt_max (cfg : RateLimitConfig) (c : Ctx)
    (s : Store) (now : Nat) (handler : Store → Nat × Store)
    (hskip : cfg.skip c = false) :
    ((runGate cfg c s now handler).1.isRejected = true ↔
      (MemoryStore.increment s (cfg.keyGenerator c) cfg.windowMs now).1.count
        > (cfg.maxRequests : Int)) ∧
    ((MemoryStore.increment s (cfg.keyGenerator c) cfg.windowMs now).1.count
        > (cfg.maxRequests : Int) →
      (runGate cfg c s now handler).1 =
        GateOutcome.rejected 429
          (mkHeaders cfg.maxRequests
            (MemoryStore.increment s (cfg.keyGenerator c) cfg.windowMs now).1)
          (ceilDiv1000
            ((MemoryStore.increment s (cfg.keyGenerator c) cfg.windowMs now).1.resetTime
              - now))) ∧
    now ≤ (MemoryStore.increment s (cfg.keyGenerator c) cfg.windowMs now).1.resetTime ∧
    (MemoryStore.increment s (cfg.keyGenerator c) cfg.windowMs now).1.resetTime - now
      ≤ 1000 * ceilDiv1000
          ((MemoryStore.increment s (cfg.keyGenerator c) cfg.windowMs now).1.resetTime
            - now) ∧
    1000 * ceilDiv1000
        ((MemoryStore.increment s (cfg.keyGenerator c) cfg.windowMs now).1.resetTime
          - now)
      < (MemoryStore.increment s (cfg.keyGenerator c) cfg.windowMs now).1.resetTime
          - now + 1000 := by
  by_cases hgt :
      (MemoryStore.increment s (cfg.keyGenerator c) cfg.windowMs now).1.count
        > (cfg.maxRequests : Int)
  · refine ⟨?_, fun _ => ?_, increment_now_le_resetTime .., (ceilDiv1000_spec _).1,
      (ceilDiv1000_spec _).2⟩
    · simp [runGate, hskip, hgt, GateOutcome.isRejected]
    · simp [runGate, hskip, hgt]
  · refine ⟨?_, fun h => absurd h hgt, increment_now_le_resetTime ..,
      (ceilDiv1000_spec _).1, (ceilDiv1000_spec _).2⟩
    simp [runGate, hskip, hgt, GateOutcome.isRejected]

/-- Witness for C1: under the authentication policy (ceiling 5), an
anonymous request whose key already has count 5 in an open window is
rejected with 429 and `Retry-After = ceil((10000 - 500) / 1000) = 10`. -/
theorem C1_reject_iff_count_gt_max_witness :
    (runGate authRateLimit ⟨none, none, none, none, none, "/api/v1/auth/login"⟩
        [("auth:ip:unknown", ⟨5, 10000, 0⟩)] 500 (fun s => (200, s))).1 =
      GateOutcome.rejected 429 ⟨5, 0, 10, 6⟩ 10 := by
  have h := (C1_reject_iff_count_gt_max authRateLimit
    ⟨none, none, none, none, none, "/api/v1/auth/login"⟩
    [("auth:ip:unknown", ⟨5, 10000, 0⟩)] 500 (fun s => (200, s)) rfl).2.1
    (by decide)
  simpa using h

/-- C3: `increment` creates a fresh entry with count 1 and
`resetTime = now + windowMs` when the key has no unexpired entry, bumps
the count in place (resetTime untouched) when it has one, accumulates to
count `N` over `N` in-window increments of an initially absent key, and
restarts at count 1 on the first increment past `resetTime`. -/
theorem C3_increment_spec :
    (∀ (s : Store) (key : String) (windowMs now : Nat),
        (MemoryStore.get s key now).1 = none →
        MemoryStore.increment s key windowMs now =
          (⟨1, now + windowMs, now⟩,
           mapSet (MemoryStore.get s key now).2 key ⟨1, now + windowMs, now⟩)) ∧
    (∀ (s : Store) (key : String) (windowMs now : Nat) (e : RateLimitEntry),
        (MemoryStore.get s key now).1 = some e →
        MemoryStore.increment s key windowMs now =
          ({ e with count := e.count + 1 },
           mapSet s key { e with count := e.count + 1 })) ∧
    (∀ (key : String) (windowMs t1 : Nat) (ts : List Nat) (s : Store),
        mapGet s key = none → (∀ t ∈ ts, t ≤ t1 + windowMs) →
        mapGet (incrementTimes key windowMs (t1 :: ts) s) key =
          some ⟨((t1 :: ts).length : Int), t1 + windowMs, t1⟩) ∧
    (∀ (s : Store) (key : String) (windowMs t : Nat) (e : RateLimitEntry),
        mapGet s key = some e → e.resetTime < t →
        (MemoryStore.increment s key windowMs t).1 = ⟨1, t + windowMs, t⟩) := by
  refine ⟨fun s key w now h => increment_of_get_none h,
          fun s key w now e h => increment_of_get_some h, ?_, ?_⟩
  · intro key w t1 ts s hnone hw
    have hget : (MemoryStore.get s key t1).1 = none := by
      unfold MemoryStore.get
      rw [hnone]
    have hsnd : (MemoryStore.get s key t1).2 = s := by
      rw [get_snd_eq, hnone]
    simp only [incrementTimes]
    rw [increment_of_get_none hget, hsnd]
    have hrec := incrementTimes_existing key w ts
      (mapSet s key ⟨1, t1 + w, t1⟩) ⟨1, t1 + w, t1⟩
      (mapGet_mapSet_self s key ⟨1, t1 + w, t1⟩) hw
    rw [show ((⟨1, t1 + w, t1⟩ : RateLimitEntry),
        mapSet s key ⟨1, t1 + w, t1⟩).2 = mapSet s key ⟨1, t1 + w, t1⟩ from rfl,
      hrec]
    simp only [List.length_cons, RateLimitEntry.mk.injEq, Option.some.injEq,
      and_true, true_and]
    omega
  · intro s key w t e hs hlt
    rw [increment_expired hs hlt]

/-- Witness for C3: three increments of an initially absent key at
instants 0, 3 and 5 inside the 10-unit window leave count 3; an
increment at instant 4 against an entry expired at 2 restarts at count 1. -/
theorem C3_increment_spec_witness :
    mapGet (incrementTimes "k" 10 [0, 3, 5] []) "k" = some ⟨3, 10, 0⟩ ∧
    (MemoryStore.increment [("k", ⟨3, 2, 0⟩)] "k" 10 4).1 = ⟨1, 14, 4⟩ := by
  constructor
  · simpa using C3_increment_spec.2.2.1 "k" 10 0 [3, 5] [] rfl (by decide)
  · simpa using C3_increment_spec.2.2.2 [("k", ⟨3, 2, 0⟩)] "k" 10 4 ⟨3, 2, 0⟩
      (by decide) (by decide)

/-- C5: entry counts stay non-negative under every store operation —
increment, the compensating decrement, the full `finally` compensation
step, and reset — and when the key has no live entry the compensating
decrement does nothing beyond the eviction the re-read itself performs:
no entry is created or resurrected. -/
theorem C5_count_never_negative :
    (∀ (s : Store), StoreNonneg s → ∀ (key : String) (windowMs now : Nat),
        StoreNonneg (MemoryStore.increment s key windowMs now).2) ∧
    (∀ (s : Store), StoreNonneg s → ∀ (key : String) (now : Nat),
        StoreNonneg (decrementIfPresent s key now)) ∧
    (∀ (s : Store), StoreNonneg s →
        ∀ (cfg : RateLimitConfig) (key : String) (statusCode now : Nat),
        StoreNonneg (settle cfg key statusCode s now)) ∧
    (∀ (s : Store), StoreNonneg s → ∀ (key : String),
        StoreNonneg (MemoryStore.reset s key)) ∧
    (∀ (s : Store) (key : String) (now : Nat),
        (MemoryStore.get s key now).1 = none →
        decrementIfPresent s key now = (MemoryStore.get s key now).2 ∧
        mapGet (decrementIfPresent s key now) key = none) := by
  refine ⟨fun s hs key w now => nonneg_increment hs key w now,
          fun s hs key now => nonneg_decrementIfPresent hs key now,
          fun s hs cfg key st now => nonneg_settle hs cfg key st now,
          fun s hs key => nonneg_mapDelete hs key,
          fun s key now h => ⟨decrement_of_get_none h, ?_⟩⟩
  rw [decrement_of_get_none h]
  exact get_none_mapGet h

/-- Witness for C5: a store with counts 2 and 0 stays non-negative under
a decrement (the zero-count entry is left at 0), and a decrement against
an expired entry only evicts it. -/
theorem C5_count_never_negative_witness :
    StoreNonneg (decrementIfPresent [("k", ⟨2, 100, 0⟩), ("z", ⟨0, 100, 0⟩)] "z" 50) ∧
    mapGet (decrementIfPresent [("k", ⟨2, 5, 0⟩)] "k" 50) "k" = none := by
  constructor
  · exact C5_count_never_negative.2.1 _ (by unfold StoreNonneg; decide) "z" 50
  · exact (C5_count_never_negative.2.2.2.2 [("k", ⟨2, 5, 0⟩)] "k" 50 (by decide)).2

/-- C6: a matching skip predicate makes the gate a pure pass-through —
the downstream handler runs against the untouched store, no headers are
attached, and the store the gate leaves behind is exactly what the
handler produced (no entry created or mutated, no compensation step). -/
theorem C6_skip_is_pure_passthrough (cfg : RateLimitConfig) (c : Ctx)
    (s : Store) (now : Nat) (handler : Store → Nat × Store)
    (h : cfg.skip c = true) :
    runGate cfg c s now handler =
      (GateOutcome.completed (handler s).1 none, (handler s).2) := by
  simp [runGate, h]

/-- Witness for C6: an admin request under the upload policy is skipped;
the existing entry for the admin's own key is untouched. -/
theorem C6_skip_is_pure_passthrough_witness :
    runGate uploadRateLimit
        ⟨some ⟨"u1", "admin", "alice"⟩, none, none, none, none, "/api/v1/uploads"⟩
        [("upload:u1", ⟨7, 900, 0⟩)] 100 (fun s => (204, s)) =
      (GateOutcome.completed 204 none, [("upload:u1", ⟨7, 900, 0⟩)]) :=
  C6_skip_is_pure_passthrough uploadRateLimit
    ⟨some ⟨"u1", "admin", "alice"⟩, none, none, none, none, "/api/v1/uploads"⟩
    [("upload:u1", ⟨7, 900, 0⟩)] 100 (fun s => (204, s)) rfl

/-- C7 counterexample: with an entry whose `resetTime` equals `now`,
`get` still returns the entry, although its reset instant is not in the
future — the claimed "present and resetAt strictly in the future"
equivalence fails at the boundary. -/
theorem C7_boundary_counterexample :
    (MemoryStore.get [("k", ⟨3, 100, 0⟩)] "k" 100).1 = some ⟨3, 100, 0⟩ ∧
    ¬ (100 < (⟨3, 100, 0⟩ : RateLimitEntry).resetTime) := by
  decide

/-- C7 as amended: `get` returns the entry exactly when one is present
and its `resetTime` has not strictly passed (`now ≤ resetTime`); a
present-but-expired entry is evicted and none is returned; an entry is
never returned strictly past its `resetTime`, independent of the sweep. -/
theorem C7_get_expiry_authoritative (s : Store) (key : String) (now : Nat) :
    (∀ e, (MemoryStore.get s key now).1 = some e ↔
        mapGet s key = some e ∧ now ≤ e.resetTime) ∧
    ((MemoryStore.get s key now).2 =
      match mapGet s key with
      | some e => if e.resetTime < now then mapDelete s key else s
      | none => s) ∧
    (∀ e, (MemoryStore.get s key now).1 = some e → now ≤ e.resetTime) := by
  exact ⟨fun e => get_fst_eq_some_iff s key now e, get_snd_eq s key now,
    fun e h => ((get_fst_eq_some_iff s key now e).mp h).2⟩

/-- Witness for C7 (amended): an entry with one tick of window left is
returned; the same entry one tick after expiry is evicted. -/
theorem C7_get_expiry_authoritative_witness :
    (MemoryStore.get [("k", ⟨3, 100, 0⟩)] "k" 99).1 = some ⟨3, 100, 0⟩ ∧
    (MemoryStore.get [("k", ⟨3, 100, 0⟩)] "k" 101).1 = none ∧
    (MemoryStore.get [("k", ⟨3, 100, 0⟩)] "k" 101).2 = [] := by
  refine ⟨((C7_get_expiry_authoritative [("k", ⟨3, 100, 0⟩)] "k" 99).1
    ⟨3, 100, 0⟩).mpr ⟨rfl, by decide⟩, by decide, ?_⟩
  rw [(C7_get_expiry_authoritative [("k", ⟨3, 100, 0⟩)] "k" 101).2.1]
  decide

/-- C2: the ownership guard fails Unauthenticated without a principal;
with a principal it fails NotFound when the resource does not exist,
whatever the role; an admin is allowed regardless of the owner id; the
owner is allowed; any other principal gets Forbidden. The extension
lookup supplying the guard reports 404 exactly when the row is absent
and the stored `authorId` otherwise. -/
theorem C2_ownership_guard :
    (∀ lookup, requireOwnershipOrAdmin none lookup =
        GuardResult.unauthenticated 401) ∧
    (∀ (u : User), requireOwnershipOrAdmin (some u) OwnerLookup.missing =
        GuardResult.notFound 404) ∧
    (∀ (u : User) (ownerId : String), u.role = "admin" →
        requireOwnershipOrAdmin (some u) (OwnerLookup.found ownerId) =
          GuardResult.allowed) ∧
    (∀ (u : User) (ownerId : String), u.id = ownerId →
        requireOwnershipOrAdmin (some u) (OwnerLookup.found ownerId) =
          GuardResult.allowed) ∧
    (∀ (u : User) (ownerId : String), u.role ≠ "admin" → u.id ≠ ownerId →
        requireOwnershipOrAdmin (some u) (OwnerLookup.found ownerId) =
          GuardResult.forbidden 403) ∧
    (∀ (table : List (String × String)) (id : String),
        table.lookup id = none → getExtensionOwner table id = .error 404) ∧
    (∀ (table : List (String × String)) (id ownerId : String),
        table.lookup id = some ownerId →
        getExtensionOwner table id = .ok ownerId) := by
  refine ⟨fun lookup => rfl, fun u => rfl, ?_, ?_, ?_, ?_, ?_⟩
  · intro u ownerId hrole
    simp [requireOwnershipOrAdmin, hrole]
  · intro u ownerId hid
    by_cases hrole : u.role = "admin" <;>
      simp [requireOwnershipOrAdmin, hrole, hid]
  · intro u ownerId hrole hid
    simp [requireOwnershipOrAdmin, hrole, hid]
  · intro table id h
    simp [getExtensionOwner, h]
  · intro table id ownerId h
    simp [getExtensionOwner, h]

/-- Witness for C2: a non-owner non-admin user is forbidden; an admin
updating someone else's extension is allowed; a lookup against a table
without the id yields 404. -/
theorem C2_ownership_guard_witness :
    requireOwnershipOrAdmin (some ⟨"a", "user", "alice"⟩)
        (OwnerLookup.found "b") = GuardResult.forbidden 403 ∧
    requireOwnershipOrAdmin (some ⟨"c", "admin", "carol"⟩)
        (OwnerLookup.found "b") = GuardResult.allowed ∧
    getExtensionOwner [("ext1", "b")] "ext2" = .error 404 := by
  refine ⟨C2_ownership_guard.2.2.2.2.1 ⟨"a", "user", "alice"⟩ "b"
      (by decide) (by decide),
    C2_ownership_guard.2.2.1 ⟨"c", "admin", "carol"⟩ "b" rfl,
    C2_ownership_guard.2.2.2.2.2.1 [("ext1", "b")] "ext2" (by decide)⟩

/-- C4 counterexample: `getStore` hands out one module-level store and
ignores `windowMs` thereafter. With the 15-minute (900000 ms) and
60-minute (3600000 ms) windows of the authentication and upload policies
calling in module-initialization order, the second call returns the very
store the first call created, although the window durations differ —
refuting "policies with different window durations use different
stores". -/
theorem C4_shared_store_counterexample :
    (getStore 3600000 (getStore 900000 none).2).1 = (getStore 900000 none).1 ∧
    (900000 : Nat) ≠ 3600000 := by
  exact ⟨rfl, by decide⟩

/-- C4 as amended: every `getStore` call after the first returns exactly
the store the first call allocated, whatever window duration either call
passes — all policies share one global CounterStore. -/
theorem C4_single_global_store (w1 w2 : Nat) (g : Option MemoryStoreObj) :
    (getStore w2 (getStore w1 g).2).1 = (getStore w1 g).1 := by
  cases g <;> rfl

/-- C8: the five built-in policies carry exactly the window durations,
ceilings, key strategies and skip rules of the policy table: general
(15 min, 100, principal id else IP, skip admin or health path), strict
(5 min, 10, principal id + IP else IP, skip admin), authentication
(15 min, 5, client IP only — the key ignores the principal — never
skipped), upload (60 min, 50, principal id else IP, skip admin or
developer), api-key (60 min, 1000, API-key id else principal id else IP,
never skipped). -/
theorem C8_policy_table :
    (generalRateLimit.windowMs = 15 * 60 * 1000 ∧
     generalRateLimit.maxRequests = 100 ∧
     (∀ c, generalRateLimit.keyGenerator c =
        match c.user with
        | some u => "user:" ++ u.id
        | none => defaultKeyGenerator c) ∧
     (∀ c, generalRateLimit.skip c =
        ((match c.user with
          | some u => u.role == "admin"
          | none => false) || c.path == "/health"))) ∧
    (strictRateLimit.windowMs = 5 * 60 * 1000 ∧
     strictRateLimit.maxRequests = 10 ∧
     (∀ c, strictRateLimit.keyGenerator c =
        match c.user with
        | some u => "strict:" ++ u.id ++ ":" ++ defaultKeyGenerator c
        | none => "strict:" ++ defaultKeyGenerator c) ∧
     (∀ c, strictRateLimit.skip c =
        (match c.user with
         | some u => u.role == "admin"
         | none => false))) ∧
    (authRateLimit.windowMs = 15 * 60 * 1000 ∧
     authRateLimit.maxRequests = 5 ∧
     (∀ c, authRateLimit.keyGenerator c = "auth:" ++ defaultKeyGenerator c) ∧
     (∀ c u, authRateLimit.keyGenerator { c with user := u } =
        authRateLimit.keyGenerator c) ∧
     (∀ c, authRateLimit.skip c = false)) ∧
    (uploadRateLimit.windowMs = 60 * 60 * 1000 ∧
     uploadRateLimit.maxRequests = 50 ∧
     (∀ c, uploadRateLimit.keyGenerator c =
        match c.user with
        | some u => "upload:" ++ u.id
        | none => "upload:" ++ defaultKeyGenerator c) ∧
     (∀ c, uploadRateLimit.skip c =
        (match c.user with
         | some u => u.role == "admin" || u.role == "developer"
         | none => false))) ∧
    (apiKeyRateLimit.windowMs = 60 * 60 * 1000 ∧
     apiKeyRateLimit.maxRequests = 1000 ∧
     (∀ c, apiKeyRateLimit.keyGenerator c =
        match c.apiKey with
        | some k => "apikey:" ++ k.id
        | none =>
            match c.user with
            | some u => "user:" ++ u.id
            | none => defaultKeyGenerator c) ∧
     (∀ c, apiKeyRateLimit.skip c = false)) := by
  exact ⟨⟨rfl, rfl, fun c => rfl, fun c => rfl⟩,
    ⟨rfl, rfl, fun c => rfl, fun c => rfl⟩,
    ⟨rfl, rfl, fun c => rfl, fun c u => rfl, fun c => rfl⟩,
    ⟨rfl, rfl, fun c => rfl, fun c => rfl⟩,
    ⟨rfl, rfl, fun c => rfl, fun c => rfl⟩⟩

/-- C9: none of the five built-in policies sets
`skipSuccessfulRequests` or `skipFailedRequests`, so the `finally`
compensation step is the identity on the store for every key, status
code and instant: an admitted request's count after the downstream
handler settles is its count immediately after admission. -/
theorem C9_no_compensation_in_shipped_policies :
    (generalRateLimit.skipSuccessfulRequests = false ∧
     generalRateLimit.skipFailedRequests = false ∧
     strictRateLimit.skipSuccessfulRequests = false ∧
     strictRateLimit.skipFailedRequests = false ∧
     authRateLimit.skipSuccessfulRequests = false ∧
     authRateLimit.skipFailedRequests = false ∧
     uploadRateLimit.skipSuccessfulRequests = false ∧
     uploadRateLimit.skipFailedRequests = false ∧
     apiKeyRateLimit.skipSuccessfulRequests = false ∧
     apiKeyRateLimit.skipFailedRequests = false) ∧
    (∀ (key : String) (statusCode : Nat) (s : Store) (now : Nat),
      settle generalRateLimit key statusCode s now = s ∧
      settle strictRateLimit key statusCode s now = s ∧
      settle authRateLimit key statusCode s now = s ∧
      settle uploadRateLimit key statusCode s now = s ∧
      settle apiKeyRateLimit key statusCode s now = s) := by
  refine ⟨⟨rfl, rfl, rfl, rfl, rfl, rfl, rfl, rfl, rfl, rfl⟩,
    fun key st s now => ?_⟩
  refine ⟨?_, ?_, ?_, ?_, ?_⟩ <;>
    simp [settle, generalRateLimit, rateLimitMiddleware, strictRateLimit,
      authRateLimit, uploadRateLimit, apiKeyRateLimit]

/-- C10: `getRateLimitStatus` measures every key against a hard-coded
ceiling of 100, whichever policy actually governs it: an absent or
expired key reports count 0, remaining 100 and not limited; a live entry
reports its count, `remaining = max(0, 100 - count)` and
`isLimited ↔ 100 ≤ count` — a non-strict comparison, in contrast to the
gate's strict `count > maxRequests` rejection rule. -/
theorem C10_status_hardcoded_ceiling (key : String) (windowMs : Nat)
    (s : Store) (now : Nat) :
    ((MemoryStore.get s key now).1 = none →
        getRateLimitStatus key windowMs s now =
          ⟨0, 100, now + windowMs, false⟩) ∧
    (∀ e, (MemoryStore.get s key now).1 = some e →
        getRateLimitStatus key windowMs s now =
          ⟨e.count, max 0 ((100 : Int) - e.count), e.resetTime,
           decide ((100 : Int) ≤ e.count)⟩) ∧
    (∀ e, (MemoryStore.get s key now).1 = some e →
        ((getRateLimitStatus key windowMs s now).isLimited = true ↔
          (100 : Int) ≤ e.count)) := by
  refine ⟨fun h => ?_, fun e h => ?_, fun e h => ?_⟩
  · simp only [getRateLimitStatus]
    rw [h]
  · simp only [getRateLimitStatus]
    rw [h]
  · simp only [getRateLimitStatus]
    rw [h]
    simp

/-- Witness for C10: an absent key reports the defaults; a live entry
with count exactly 100 is reported limited although the gate's strict
rule would still admit it under a ceiling of 100. -/
theorem C10_status_hardcoded_ceiling_witness :
    getRateLimitStatus "k" 900000 [] 0 = ⟨0, 100, 900000, false⟩ ∧
    (getRateLimitStatus "u" 900000 [("u", ⟨100, 500, 0⟩)] 10).isLimited = true ∧
    ¬ ((100 : Int) > ((100 : Nat) : Int)) := by
  refine ⟨(C10_status_hardcoded_ceiling "k" 900000 [] 0).1 rfl, ?_, by decide⟩
  rw [((C10_status_hardcoded_ceiling "u" 900000 [("u", ⟨100, 500, 0⟩)] 10).2.2
    ⟨100, 500, 0⟩ (by decide))]

end AcaciaStore
